import Mathlib

/-!
A shallow embedding of the hook-management and activation-caching subsystem of
`transformer_lens/hook_points.py` (classes `LensHandle`, `HookPoint`,
`HookedRootModule`), together with theorems checking the specification's
claims about it.

Modelling conventions:
* Tensor-level concerns (devices, `detach`, batch dimensions) lie outside the
  embedded fragment; a captured activation is an abstract integer value.
* Python exceptions are explicit: an operation that cannot mutate state before
  raising returns `Except PyError _`; an operation whose partial mutations
  survive an exception (Python objects are mutated in place) returns
  `PyResult σ α`, which carries the state on both the normal and the
  exceptional path.
* Python dicts are association lists in insertion order.  `mod_dict` and
  `hook_dict` of a `HookedRootModule` alias the same `HookPoint` objects; in
  the setting of every claim all registered submodules are hook points, so a
  single association list represents both dictionaries.
-/

/-- The Python exceptions the embedded code can raise. -/
inductive PyError where
  | valueError (msg : String)
  | keyError (key : String)
  | indexError (msg : String)
  | typeError (msg : String)
  | attributeError (msg : String)
  deriving DecidableEq

/-- Result of a Python call on a mutable object: the object's state after the
call together with either a return value or a raised exception. -/
inductive PyResult (σ : Type) (α : Type) where
  | ok : σ → α → PyResult σ α
  | err : σ → PyError → PyResult σ α

/-- The state of the object after the call, on both exit paths. -/
def PyResult.state {σ α : Type} : PyResult σ α → σ
  | .ok s _ => s
  | .err s _ => s

/-- Whether the call raised. -/
def PyResult.isErr {σ α : Type} : PyResult σ α → Bool
  | .ok _ _ => false
  | .err _ _ => true

/-- An activation value flowing through the graph (tensors are abstracted to
integers). -/
abbrev Val := Int

/-- A Python dict key as used by the activation cache: `hook.name`, which is
`None` before setup. -/
abbrev PyKey := Option String

/-- The activation cache: a Python dict in insertion order. -/
abbrev Cache := List (PyKey × Val)

/-- Python dict update `cache[k] = v`: overwrite in place if the key exists, else append. -/
def cacheInsert (c : Cache) (k : PyKey) (v : Val) : Cache :=
  match c with
  | [] => [(k, v)]
  | (k', w) :: rest => if k' == k then (k, v) :: rest else (k', w) :: cacheInsert rest k v

/-- Python dict lookup `d[k]` in a string-keyed dict. -/
def dictGet {α : Type} (d : List (String × α)) (k : String) : Option α :=
  match d with
  | [] => none
  | (n, v) :: rest => if n == k then some v else dictGet rest k

/-- Overwrite the value stored under an existing key (Python mutates the stored
object in place, keeping its position). -/
def dictSet {α : Type} (d : List (String × α)) (k : String) (v : α) : List (String × α) :=
  match d with
  | [] => []
  | (n, w) :: rest => if n == k then (n, v) :: rest else (n, w) :: dictSet rest k v

/-- A hook callback.  `save_hook` and `save_hook_back` are the closures created
by `add_caching_hooks` (they write into the shared cache and return `None`);
`pure f` is an arbitrary caller-supplied callback that may return a
replacement value. -/
inductive Hook where
  | save_hook
  | save_hook_back
  | pure (f : Val → Option Val)

/-- The gradient cache key `hook.name + "_grad"`.  (For an unnamed node Python
would raise a TypeError; that state is unreachable once `setup` has named
every node in `hook_dict`, and is modelled as the `none` key.) -/
def gradKey (name : Option String) : PyKey := name.map (fun n => n ++ "_grad")

/-- Calling a hook with `(value, hook=self)`: it may read/write the shared
cache and may return a replacement value (`save_hook` stores
`cache[hook.name] = value` and returns `None`; `save_hook_back` stores under
the `_grad` key). -/
def applyHook : Hook → Val → Option String → Cache → Cache × Option Val
  | .save_hook, v, name, c => (cacheInsert c name v, none)
  | .save_hook_back, v, name, c => (cacheInsert c (gradKey name) v, none)
  | .pure f, v, _, c => (c, f v)

/-- Source class `LensHandle`: one registered hook with its permanence flag.  The source
stores a torch `RemovableHandle`; since torch invokes hooks from its own
registry in registration order and `remove_hooks` calls `handle.hook.remove()`
exactly when it drops a handle from the list, the `fwd_hooks`/`bwd_hooks`
lists are the single source of truth here, and a handle stores the callback
itself. -/
structure LensHandle where
  hook : Hook
  is_permanent : Bool

/-- Source class `HookPoint`: the identity instrumentation node.  Field order follows
`__init__`: forward handles, backward handles, scratch context, name (set by
the root module at setup, `None` before). -/
structure HookPoint where
  fwd_hooks : List LensHandle
  bwd_hooks : List LensHandle
  ctx : List (String × Val)
  name : Option String

/-- Source method `HookPoint.add_hook(hook, dir, is_permanent)`: wraps the callback and
appends a handle to the list for the given direction; any other direction
string raises `ValueError` before any mutation. -/
def HookPoint.add_hook (hp : HookPoint) (hook : Hook) (dir : String) (is_permanent : Bool) :
    Except PyError HookPoint :=
  if dir == "fwd" then
    .ok { hp with fwd_hooks := hp.fwd_hooks ++ [⟨hook, is_permanent⟩] }
  else if dir == "bwd" then
    .ok { hp with bwd_hooks := hp.bwd_hooks ++ [⟨hook, is_permanent⟩] }
  else
    .error (.valueError ("Invalid direction " ++ dir))

/-- The inner `_remove_hooks` helper: walk the handle list, removing (calling
`handle.hook.remove()` on) every handle that is not permanent or when
`including_permanent` is set, and keep the rest in order. -/
def removeHandles (including_permanent : Bool) : List LensHandle → List LensHandle
  | [] => []
  | h :: rest =>
    if !h.is_permanent || including_permanent then removeHandles including_permanent rest
    else h :: removeHandles including_permanent rest

/-- Source method `HookPoint.remove_hooks(dir, including_permanent)`: filters the forward
list when `dir` is `"fwd"` or `"both"`, then the backward list when `dir` is
`"bwd"` or `"both"`, and finally raises `ValueError` if `dir` is not one of
the three valid strings.  The result carries the (possibly mutated) state also
on the exceptional path, mirroring the source's check-after-mutation order. -/
def HookPoint.remove_hooks (hp : HookPoint) (dir : String) (including_permanent : Bool) :
    PyResult HookPoint Unit :=
  let hp1 :=
    if dir == "fwd" || dir == "both" then
      { hp with fwd_hooks := removeHandles including_permanent hp.fwd_hooks }
    else hp
  let hp2 :=
    if dir == "bwd" || dir == "both" then
      { hp1 with bwd_hooks := removeHandles including_permanent hp1.bwd_hooks }
    else hp1
  if !(dir == "fwd" || dir == "bwd" || dir == "both") then
    .err hp2 (.valueError ("Invalid direction " ++ dir))
  else
    .ok hp2 ()

/-- Source method `HookPoint.clear_context()`: replace the context with a fresh empty
mapping. -/
def HookPoint.clear_context (hp : HookPoint) : HookPoint :=
  { hp with ctx := [] }

/-- Source method `HookPoint.forward(x) = x`: the module itself is the identity. -/
def HookPoint.forward (_hp : HookPoint) (x : Val) : Val := x

/-- Characters Python's `int()` strips from both ends. -/
def isPySpace (c : Char) : Bool :=
  c == ' ' || c == '\t' || c == '\n' || c == '\r'

/-- Digit value of an ASCII digit character. -/
def digitVal (c : Char) : Nat := c.toNat - 48

/-- Remaining digits of a Python integer literal: digits with single
underscores allowed between digits. -/
def pyDigitsCore : List Char → Nat → Option Nat
  | [], acc => some acc
  | '_' :: c :: rest, acc =>
    if c.isDigit then pyDigitsCore rest (acc * 10 + digitVal c) else none
  | ['_'], _ => none
  | c :: rest, acc =>
    if c.isDigit then pyDigitsCore rest (acc * 10 + digitVal c) else none

/-- A nonempty digit string (no leading underscore). -/
def pyNatDigits : List Char → Option Nat
  | [] => none
  | c :: rest => if c.isDigit then pyDigitsCore rest (digitVal c) else none

/-- Python's `int(s)` on a decimal string: surrounding whitespace, an optional
sign, then digits; `none` models the `ValueError` on any other input. -/
def pyInt? (s : String) : Option Int :=
  let cs := ((s.toList.dropWhile isPySpace).reverse.dropWhile isPySpace).reverse
  match cs with
  | '+' :: rest => (pyNatDigits rest).map (fun n => (n : Int))
  | '-' :: rest => (pyNatDigits rest).map (fun n => -(n : Int))
  | rest => (pyNatDigits rest).map (fun n => (n : Int))

/-- Python `str.split(".")` on character lists: always returns at least one (possibly
empty) segment; a separator at either end yields an empty segment there. -/
def splitChars : List Char → List (List Char)
  | [] => [[]]
  | '.' :: rest => [] :: splitChars rest
  | c :: rest =>
    match splitChars rest with
    | seg :: more => (c :: seg) :: more
    | [] => [[c]]

/-- Python `name.split(".")`. -/
def splitOnDot (s : String) : List String :=
  (splitChars s.toList).map (fun l => String.mk l)

/-- Source method `HookPoint.layer()`: `split_name = self.name.split("."); int(split_name[1])`.
An unset name raises `AttributeError` (`None` has no `split`), a single
segment raises `IndexError`, a non-integer second segment raises
`ValueError`. -/
def HookPoint.layer (hp : HookPoint) : Except PyError Int :=
  match hp.name with
  | none => .error (.attributeError "NoneType object has no attribute split")
  | some n =>
    match (splitOnDot n).get? 1 with
    | none => .error (.indexError "list index out of range")
    | some s =>
      match pyInt? s with
      | none => .error (.valueError ("invalid literal for int: " ++ s))
      | some i => .ok i

/-- Modelled from the spec: the forward-hook dispatch of the external
execution engine (torch `nn.Module.__call__`), which is not part of this
repository.  Each registered handle's callback is called in order with the
current value and the node (represented by its name); a non-null return value
replaces the current value for the next hook.  The shared cache is threaded
through because the caching closures write into it. -/
def runHandles : Option String → List LensHandle → Val → Cache → Cache × Val
  | _, [], v, c => (c, v)
  | name, h :: rest, v, c =>
    let (c', r) := applyHook h.hook v name c
    runHandles name rest (match r with | some x => x | none => v) c'

/-- Modelled from the spec: `invoke_forward(value)` — the engine computes the
module output `forward(x) = x` and then runs the forward handles on it in
registration order. -/
def HookPoint.invoke_forward (hp : HookPoint) (v : Val) (c : Cache) : Cache × Val :=
  runHandles hp.name hp.fwd_hooks (hp.forward v) c

/-- The spec's own description of forward invocation, written from its words
for comparison: "For each forward binding in order, calls the hook with
(current value, self); if the hook returns a non-null replacement, that
replacement becomes the new current value passed to the next hook and
ultimately returned." -/
def threadHooks : Option String → List Hook → Val → Cache → Cache × Val
  | _, [], v, c => (c, v)
  | name, h :: rest, v, c =>
    match applyHook h v name c with
    | (c', some r) => threadHooks name rest r c'
    | (c', none) => threadHooks name rest v c'

/-- Register a list of callbacks one after the other via the source's
`add_hook` with `dir="fwd"`; the error branch is unreachable because the
direction is the literal `"fwd"`. -/
def registerFwdList (hp : HookPoint) : List Hook → HookPoint
  | [] => hp
  | h :: rest =>
    match hp.add_hook h "fwd" false with
    | .ok hp' => registerFwdList hp' rest
    | .error _ => hp

/-- Source class `HookedRootModule`: `__init__` sets `is_caching = False`; `mod_dict` and
`hook_dict` exist only after `setup()` (accessing them before raises
`AttributeError`), hence the `Option`.  The two dicts alias the same
`HookPoint` objects and, in the setting of the claims (all submodules are
hook points), hold the same entries, so one association list stands for
both. -/
structure HookedRootModule where
  is_caching : Bool
  hook_dict : Option (List (String × HookPoint))

/-- Source method `setup()`: traverse `named_modules()`, assign each module its name, and
build `mod_dict`/`hook_dict`.  The traversal is supplied as the list of
`(name, module)` pairs it yields. -/
def HookedRootModule.setup (m : HookedRootModule)
    (named_modules : List (String × HookPoint)) : HookedRootModule :=
  { m with hook_dict := some (named_modules.map (fun p => (p.1, { p.2 with name := some p.1 }))) }

/-- The loop of `remove_all_hook_fns`: apply `remove_hooks` to each hook point
in dict order, keeping partial mutation when an iteration raises. -/
def removeAllLoop (direction : String) (including_permanent : Bool) :
    List (String × HookPoint) → PyResult (List (String × HookPoint)) Unit
  | [] => .ok [] ()
  | (n, hp) :: rest =>
    match hp.remove_hooks direction including_permanent with
    | .err hp' e => .err ((n, hp') :: rest) e
    | .ok hp' _ =>
      match removeAllLoop direction including_permanent rest with
      | .err rest' e => .err ((n, hp') :: rest') e
      | .ok rest' _ => .ok ((n, hp') :: rest') ()

/-- Source method `remove_all_hook_fns(direction, including_permanent)`: loop `remove_hooks`
over `hook_points()`.  It does not touch `is_caching`. -/
def HookedRootModule.remove_all_hook_fns (m : HookedRootModule)
    (direction : String) (including_permanent : Bool) : PyResult HookedRootModule Unit :=
  match m.hook_dict with
  | none => .err m (.attributeError "hook_dict")
  | some hd =>
    match removeAllLoop direction including_permanent hd with
    | .err hd' e => .err { m with hook_dict := some hd' } e
    | .ok hd' _ => .ok { m with hook_dict := some hd' } ()

/-- Source method `clear_contexts()`: apply `clear_context` to every hook point. -/
def HookedRootModule.clear_contexts (m : HookedRootModule) :
    Except PyError HookedRootModule :=
  match m.hook_dict with
  | none => .error (.attributeError "hook_dict")
  | some hd => .ok { m with hook_dict := some (hd.map (fun p => (p.1, p.2.clear_context))) }

/-- Source method `reset_hooks(clear_contexts, direction, including_permanent)`: optionally
clear contexts, then remove hooks, then set `is_caching = False` (only
reached when nothing raised). -/
def HookedRootModule.reset_hooks (m : HookedRootModule)
    (clear_contexts : Bool) (direction : String) (including_permanent : Bool) :
    PyResult HookedRootModule Unit :=
  match (if clear_contexts then m.clear_contexts else .ok m) with
  | .error e => .err m e
  | .ok m1 =>
    match m1.remove_all_hook_fns direction including_permanent with
    | .err m2 e => .err m2 e
    | .ok m2 _ => .ok { m2 with is_caching := false } ()

/-- The target argument of registry-level hook registration: an exact name or
a Boolean predicate on names. -/
inductive HookName where
  | str (s : String)
  | pred (p : String → Bool)

/-- The predicate loop shared by `add_hook`: for each `(hook_point_name, hp)`
in `hook_dict.items()`, if the predicate matches, `add_hook` on that node
(via `check_and_add_hook`, whose default just delegates). -/
def foldAddMatching (p : String → Bool) (hook : Hook) (dir : String) (is_permanent : Bool) :
    List (String × HookPoint) → Except PyError (List (String × HookPoint))
  | [] => .ok []
  | (n, hp) :: rest => do
    let hp' ← if p n then hp.add_hook hook dir is_permanent else Except.ok hp
    let rest' ← foldAddMatching p hook dir is_permanent rest
    Except.ok ((n, hp') :: rest')

/-- Source method `HookedRootModule.add_hook(name, hook, dir, is_permanent)`: a string
target indexes `mod_dict` (raising `KeyError` if absent, `AttributeError`
before setup) and delegates to that node; a predicate target walks
`hook_dict.items()` and binds on every match (zero matches is fine). -/
def HookedRootModule.add_hook (m : HookedRootModule)
    (name : HookName) (hook : Hook) (dir : String) (is_permanent : Bool) :
    PyResult HookedRootModule Unit :=
  match name with
  | .str s =>
    match m.hook_dict with
    | none => .err m (.attributeError "mod_dict")
    | some hd =>
      match dictGet hd s with
      | none => .err m (.keyError s)
      | some hp =>
        match hp.add_hook hook dir is_permanent with
        | .error e => .err m e
        | .ok hp' => .ok { m with hook_dict := some (dictSet hd s hp') } ()
  | .pred p =>
    match m.hook_dict with
    | none => .err m (.attributeError "hook_dict")
    | some hd =>
      match foldAddMatching p hook dir is_permanent hd with
      | .error e => .err m e
      | .ok hd' => .ok { m with hook_dict := some hd' } ()

/-- The `fwd_hooks` registration loop of `run_with_hooks`: for each
`(name, hook)` pair, a string name indexes `mod_dict` directly, a predicate
walks `hook_dict.items()`; partial registrations survive a raise. -/
def rwhFwdLoop : List (HookName × Hook) → HookedRootModule → PyResult HookedRootModule Unit
  | [], m => .ok m ()
  | (name, hook) :: rest, m =>
    match name with
    | .str s =>
      match m.hook_dict with
      | none => .err m (.attributeError "mod_dict")
      | some hd =>
        match dictGet hd s with
        | none => .err m (.keyError s)
        | some hp =>
          match hp.add_hook hook "fwd" false with
          | .error e => .err m e
          | .ok hp' => rwhFwdLoop rest { m with hook_dict := some (dictSet hd s hp') }
    | .pred p =>
      match m.hook_dict with
      | none => .err m (.attributeError "hook_dict")
      | some hd =>
        match foldAddMatching p hook "fwd" false hd with
        | .error e => .err m e
        | .ok hd' => rwhFwdLoop rest { m with hook_dict := some hd' }

/-- The predicate branch of the `bwd_hooks` loop iterates
`for hook_name, hp in self.hook_dict:` — the dict itself, not `.items()`.
Iterating a Python dict yields its keys, so each name string is unpacked as a
pair: a key of length two binds its characters to `hook_name` and `hp` (and a
match then calls `add_hook` on a one-character string, an `AttributeError`);
any other length raises `ValueError` at the unpacking. -/
def bwdPredKeysLoop (p : String → Bool) : List String → Except PyError Unit
  | [] => .ok ()
  | s :: rest =>
    match s.toList with
    | [c1, _] =>
      if p (String.mk [c1]) then
        .error (.attributeError "str object has no attribute add_hook")
      else bwdPredKeysLoop p rest
    | _ => .error (.valueError "not enough values to unpack")

/-- The `bwd_hooks` registration loop of `run_with_hooks`: the string branch
indexes `mod_dict` and adds a `"bwd"` hook; the predicate branch is the buggy
keys iteration above and never registers anything. -/
def rwhBwdLoop : List (HookName × Hook) → HookedRootModule → PyResult HookedRootModule Unit
  | [], m => .ok m ()
  | (name, hook) :: rest, m =>
    match name with
    | .str s =>
      match m.hook_dict with
      | none => .err m (.attributeError "mod_dict")
      | some hd =>
        match dictGet hd s with
        | none => .err m (.keyError s)
        | some hp =>
          match hp.add_hook hook "bwd" false with
          | .error e => .err m e
          | .ok hp' => rwhBwdLoop rest { m with hook_dict := some (dictSet hd s hp') }
    | .pred p =>
      match m.hook_dict with
      | none => .err m (.attributeError "hook_dict")
      | some hd =>
        match bwdPredKeysLoop p (hd.map Prod.fst) with
        | .error e => .err m e
        | .ok _ => rwhBwdLoop rest m

/-- Source method `run_with_hooks(fwd_hooks, bwd_hooks, reset_hooks_end, clear_contexts)`:
register the forward pairs, then the backward pairs, then run one forward
pass (`self.forward(...)`, the subclass's graph execution, supplied here as
an abstract state transformer); the `finally` block runs
`reset_hooks(clear_contexts, including_permanent=False)` on every exit path
when `reset_hooks_end` is set.  (The logging warning emitted for nonempty
`bwd_hooks` has no state effect and is not modelled.)  An exception raised in
the `finally` block replaces the original one, as in Python. -/
def HookedRootModule.run_with_hooks (m : HookedRootModule)
    (fwd_hooks bwd_hooks : List (HookName × Hook))
    (reset_hooks_end clear_contexts : Bool)
    (forwardPass : HookedRootModule → PyResult HookedRootModule Val) :
    PyResult HookedRootModule Val :=
  let tryRes : PyResult HookedRootModule Val :=
    match rwhFwdLoop fwd_hooks m with
    | .err s e => .err s e
    | .ok s _ =>
      match rwhBwdLoop bwd_hooks s with
      | .err s' e => .err s' e
      | .ok s' _ => forwardPass s'
  if reset_hooks_end then
    match tryRes with
    | .ok s out =>
      match s.reset_hooks clear_contexts "both" false with
      | .ok s' _ => .ok s' out
      | .err s' e => .err s' e
    | .err s e =>
      match s.reset_hooks clear_contexts "both" false with
      | .ok s' _ => .err s' e
      | .err s' e2 => .err s' e2
  else tryRes

/-- The `names_filter` argument of `add_caching_hooks`/`run_with_cache`:
`None`, an exact name, a list of names, or a predicate. -/
inductive NamesFilterArg where
  | null
  | str (s : String)
  | list (l : List String)
  | fn (p : String → Bool)

/-- The effective predicate produced by the filter-normalisation block of
`add_caching_hooks`.  The source rebinds the *same local variable*:
`names_filter = lambda name: name == names_filter` — the lambda's free
variable `names_filter` is looked up at call time and by then refers to the
lambda itself.  So the string case compares each name against a function
object (always `False` in Python, no exception), and the list case evaluates
`name in <function>`, a `TypeError`.  Only `None` and predicate arguments
behave as documented. -/
def resolvedNamesFilter : NamesFilterArg → String → Except PyError Bool
  | .null, _ => .ok true
  | .str _, _ => .ok false
  | .list _, _ => .error (.typeError "argument of type function is not iterable")
  | .fn p, name => .ok (p name)

/-- The installation loop of `add_caching_hooks`: for each `(name, hp)` in
`hook_dict.items()`, evaluate the (possibly raising) filter; on a match add
`save_hook` forward and, if `incl_bwd`, `save_hook_back` backward.  Partial
installations survive a raise. -/
def cachingLoop (filt : String → Except PyError Bool) (incl_bwd : Bool) :
    List (String × HookPoint) → PyResult (List (String × HookPoint)) Unit
  | [] => .ok [] ()
  | (n, hp) :: rest =>
    match filt n with
    | .error e => .err ((n, hp) :: rest) e
    | .ok b =>
      if b then
        match hp.add_hook .save_hook "fwd" false with
        | .error e => .err ((n, hp) :: rest) e
        | .ok hp1 =>
          match (if incl_bwd then hp1.add_hook .save_hook_back "bwd" false else .ok hp1) with
          | .error e => .err ((n, hp1) :: rest) e
          | .ok hp2 =>
            match cachingLoop filt incl_bwd rest with
            | .err rest' e => .err ((n, hp2) :: rest') e
            | .ok rest' _ => .ok ((n, hp2) :: rest') ()
      else
        match cachingLoop filt incl_bwd rest with
        | .err rest' e => .err ((n, hp) :: rest') e
        | .ok rest' _ => .ok ((n, hp) :: rest') ()

/-- Source method `add_caching_hooks(names_filter, incl_bwd, ...)`: normalise the filter,
set `is_caching = True`, then walk `hook_dict.items()` installing the caching
closures.  Device resolution and the optional caller-supplied cache are
external concerns; the cache starts empty and is threaded through the forward
pass (see `onePass`).  Note `is_caching` is set before the dict access, so it
is already `True` if the loop (or a pre-setup dict access) raises. -/
def HookedRootModule.add_caching_hooks (m : HookedRootModule)
    (names_filter : NamesFilterArg) (incl_bwd : Bool) : PyResult HookedRootModule Unit :=
  let m1 := { m with is_caching := true }
  match m1.hook_dict with
  | none => .err m1 (.attributeError "hook_dict")
  | some hd =>
    match cachingLoop (resolvedNamesFilter names_filter) incl_bwd hd with
    | .err hd' e => .err { m1 with hook_dict := some hd' } e
    | .ok hd' _ => .ok { m1 with hook_dict := some hd' } ()

/-- Source method `run_with_cache(...)`: install caching hooks, run the forward pass, run
the backward pass if `incl_bwd`, then (no try/finally here) reset hooks if
`reset_hooks_end`; returns the model output, with the cache in the state.
The passes are the subclass's graph execution, supplied abstractly. -/
def HookedRootModule.run_with_cache (m : HookedRootModule)
    (names_filter : NamesFilterArg) (incl_bwd reset_hooks_end clear_contexts : Bool)
    (forwardPass : HookedRootModule → Cache → PyResult (HookedRootModule × Cache) Val)
    (backwardPass : Val → HookedRootModule → Cache → PyResult (HookedRootModule × Cache) Unit) :
    PyResult (HookedRootModule × Cache) Val :=
  match m.add_caching_hooks names_filter incl_bwd with
  | .err m1 e => .err (m1, []) e
  | .ok m1 _ =>
    match forwardPass m1 [] with
    | .err s e => .err s e
    | .ok (m2, c2) out =>
      match (if incl_bwd then backwardPass out m2 c2 else .ok (m2, c2) ()) with
      | .err s e => .err s e
      | .ok (m3, c3) _ =>
        if reset_hooks_end then
          match m3.reset_hooks clear_contexts "both" false with
          | .err m4 e => .err (m4, c3) e
          | .ok m4 _ => .ok (m4, c3) out
        else .ok (m3, c3) out

/-- Modelled from the spec: one forward pass of the instrumented graph.  The
graph's numeric computation is external; a pass is abstracted by the value
observed at each node.  Control reaches each hook point once, in registry
order, and the node's forward hooks run inline on the observed value,
threading the shared cache. -/
def onePass (observed : String → Val) : List (String × HookPoint) → Cache → Cache
  | [], c => c
  | (n, hp) :: rest, c =>
    let (c', _) := hp.invoke_forward (observed n) c
    onePass observed rest c'

/-- A fresh hook point, as constructed before setup. -/
def hp0 : HookPoint := ⟨[], [], [], none⟩

/-- A registry as left by `__init__`, before `setup()`. -/
def reg0 : HookedRootModule := ⟨false, none⟩

/-- A registry with hook points `a`, `b`, `c`, after setup. -/
def reg3 : HookedRootModule := reg0.setup [("a", hp0), ("b", hp0), ("c", hp0)]

/-- All handles on this node are permanent (no temporary binding remains). -/
def HookPoint.allPermanent (hp : HookPoint) : Bool :=
  hp.fwd_hooks.all (fun h => h.is_permanent) && hp.bwd_hooks.all (fun h => h.is_permanent)

/-- No non-permanent binding remains on any node of the registry. -/
def HookedRootModule.noTempHooks (m : HookedRootModule) : Bool :=
  (m.hook_dict.getD []).all (fun e => e.2.allPermanent)

/-- Every node's hook lists are empty. -/
def allHooksCleared (m : HookedRootModule) : Bool :=
  (m.hook_dict.getD []).all (fun e => e.2.fwd_hooks.isEmpty && e.2.bwd_hooks.isEmpty)

/-- A node with non-permanent handles in both directions, for removal at a
given direction. -/
def stripTemp (hp : HookPoint) : HookPoint :=
  ⟨hp.fwd_hooks.filter (fun h => h.is_permanent),
   hp.bwd_hooks.filter (fun h => h.is_permanent), hp.ctx, hp.name⟩

/-- The registry `reg3` after `add_caching_hooks(names_filter=None)`: every node carries a
caching hook and `is_caching` is `True`. -/
def regCachingAll : HookedRootModule := (reg3.add_caching_hooks .null false).state

/-- The registry `regCachingAll` after `remove_all_hook_fns("both", including_permanent=True)`:
every hook is cleared. -/
def c7after : HookedRootModule := (regCachingAll.remove_all_hook_fns "both" true).state

/-- The registry `regCachingAll` after a plain `reset_hooks`. -/
def resetReg3 : HookedRootModule := (regCachingAll.reset_hooks false "both" false).state

/-- A hook point carrying permanent and non-permanent handles in both
directions. -/
def hpMix : HookPoint :=
  ⟨[⟨.save_hook, false⟩, ⟨.pure (fun _ => none), true⟩], [⟨.save_hook_back, true⟩, ⟨.save_hook, false⟩],
   [], some "a"⟩

/-- A concrete `run_with_cache` call on `reg3` with the match-all filter and a
trivial forward pass. -/
def c6run : PyResult (HookedRootModule × Cache) Val :=
  reg3.run_with_cache .null false true false
    (fun m c => .ok (m, c) 0) (fun _ m c => .ok (m, c) ())

/-- The registry state after `c6run`. -/
def c6reg : HookedRootModule := c6run.state.1

/-- Hooks used by the C5 witness: an increment hook followed by a caching
hook. -/
def c5hooks : List Hook := [.pure (fun x => some (x + 1)), .save_hook]

theorem removeHandles_true (l : List LensHandle) : removeHandles true l = [] := by
  induction l with
  | nil => rfl
  | cons h rest ih => simp [removeHandles, ih]

theorem removeHandles_false (l : List LensHandle) :
    removeHandles false l = l.filter (fun h => h.is_permanent) := by
  induction l with
  | nil => rfl
  | cons h rest ih => cases hp : h.is_permanent <;> simp [removeHandles, hp, ih, List.filter]

theorem allPerm_removeHandles_false (l : List LensHandle) :
    (removeHandles false l).all (fun h => h.is_permanent) = true := by
  induction l with
  | nil => rfl
  | cons h rest ih => cases hp : h.is_permanent <;> simp [removeHandles, hp, ih]

theorem removeHandles_false_idem (l : List LensHandle) :
    removeHandles false (removeHandles false l) = removeHandles false l := by
  induction l with
  | nil => rfl
  | cons h rest ih => cases hp : h.is_permanent <;> simp [removeHandles, hp, ih]

theorem remove_hooks_both_false (hp : HookPoint) :
    hp.remove_hooks "both" false =
      .ok ⟨removeHandles false hp.fwd_hooks, removeHandles false hp.bwd_hooks,
           hp.ctx, hp.name⟩ () := rfl

theorem removeAllLoop_both_false (hd : List (String × HookPoint)) :
    ∃ hd', removeAllLoop "both" false hd = .ok hd' () ∧
      hd'.all (fun e => e.2.allPermanent) = true := by
  induction hd with
  | nil => exact ⟨[], rfl, rfl⟩
  | cons e rest ih =>
    obtain ⟨rest', hok, hall⟩ := ih
    refine ⟨(e.1, ⟨removeHandles false e.2.fwd_hooks, removeHandles false e.2.bwd_hooks,
      e.2.ctx, e.2.name⟩) :: rest', ?_, ?_⟩
    · simp [removeAllLoop, remove_hooks_both_false, hok]
    · simp only [List.all_cons, Bool.and_eq_true]
      refine ⟨?_, hall⟩
      simp [HookPoint.allPermanent, allPerm_removeHandles_false]

theorem reset_state_noTemp (m : HookedRootModule) (cc : Bool) :
    ((m.reset_hooks cc "both" false).state).noTempHooks = true := by
  unfold HookedRootModule.reset_hooks
  cases hm : m.hook_dict with
  | none =>
    cases cc <;>
      simp [HookedRootModule.clear_contexts, HookedRootModule.remove_all_hook_fns, hm,
        PyResult.state, HookedRootModule.noTempHooks]
  | some hd =>
    cases cc with
    | false =>
      obtain ⟨hd', hok, hall⟩ := removeAllLoop_both_false hd
      simp [HookedRootModule.remove_all_hook_fns, hm, hok, PyResult.state,
        HookedRootModule.noTempHooks, hall]
    | true =>
      obtain ⟨hd', hok, hall⟩ :=
        removeAllLoop_both_false (hd.map (fun p => (p.1, p.2.clear_context)))
      simp [HookedRootModule.clear_contexts, hm, HookedRootModule.remove_all_hook_fns,
        hok, PyResult.state, HookedRootModule.noTempHooks, hall]

theorem reset_hooks_ok_flag (m m' : HookedRootModule) (cc : Bool) (d : String) (ip : Bool)
    (u : Unit) (h : m.reset_hooks cc d ip = .ok m' u) : m'.is_caching = false := by
  unfold HookedRootModule.reset_hooks at h
  cases h1 : (if cc then m.clear_contexts else Except.ok m) with
  | error e => rw [h1] at h; cases h
  | ok m1 =>
    rw [h1] at h
    dsimp only at h
    cases h2 : m1.remove_all_hook_fns d ip with
    | err m2 e => rw [h2] at h; cases h
    | ok m2 u2 => rw [h2] at h; cases h; rfl

theorem runHandles_eq_thread (name : Option String) (l : List LensHandle) (v : Val) (c : Cache) :
    runHandles name l v c = threadHooks name (l.map (fun h => h.hook)) v c := by
  induction l generalizing v c with
  | nil => rfl
  | cons h rest ih =>
    simp only [runHandles, threadHooks, List.map]
    cases happ : applyHook h.hook v name c with
    | mk c' r => cases r <;> simp [happ, ih]

theorem registerFwdList_fields (hooks : List Hook) (hp : HookPoint) :
    (registerFwdList hp hooks).fwd_hooks = hp.fwd_hooks ++ hooks.map (fun h => ⟨h, false⟩) ∧
    (registerFwdList hp hooks).name = hp.name := by
  induction hooks generalizing hp with
  | nil => simp [registerFwdList]
  | cons h rest ih =>
    have hstep : hp.add_hook h "fwd" false =
        .ok { hp with fwd_hooks := hp.fwd_hooks ++ [⟨h, false⟩] } := rfl
    obtain ⟨e1, e2⟩ := ih { hp with fwd_hooks := hp.fwd_hooks ++ [⟨h, false⟩] }
    simp [registerFwdList, hstep, e1, e2]

/-- C5: For every node, the forward invocation threads the value through the
forward bindings in registration order (first registered runs first, a
non-null return replaces the current value for the next hook, the final
current value is returned), and on a node with no forward bindings it is the
identity: registering hooks `h1..hN` via `add_hook` on a hook-free node makes
`invoke_forward` coincide with the spec's sequential threading of `h1..hN`,
each `add_hook` appends at the end of the list, and with no bindings
`invoke_forward v = v`. -/
theorem invoke_forward_threading (hp : HookPoint) (hooks : List Hook) (v : Val) (c : Cache) :
    (hp.fwd_hooks = [] → hp.invoke_forward v c = (c, v)) ∧
    (hp.fwd_hooks = [] →
      (registerFwdList hp hooks).invoke_forward v c = threadHooks hp.name hooks v c) ∧
    (∀ h hp', hp.add_hook h "fwd" false = .ok hp' →
      hp'.fwd_hooks = hp.fwd_hooks ++ [⟨h, false⟩]) := by
  refine ⟨?_, ?_, ?_⟩
  · intro h0
    unfold HookPoint.invoke_forward
    rw [h0]
    rfl
  · intro h0
    obtain ⟨e1, e2⟩ := registerFwdList_fields hooks hp
    unfold HookPoint.invoke_forward
    rw [runHandles_eq_thread, e1, e2, h0]
    have hmap : ∀ l : List Hook,
        List.map (fun h => h.hook) (List.map (fun h => (⟨h, false⟩ : LensHandle)) l) = l := by
      intro l
      induction l with
      | nil => rfl
      | cons a t ih => simp only [List.map_cons, ih]
    simp [HookPoint.forward, hmap]
  · intro h hp' hh
    have : hp.add_hook h "fwd" false =
        .ok { hp with fwd_hooks := hp.fwd_hooks ++ [⟨h, false⟩] } := rfl
    rw [this] at hh
    cases hh
    rfl

/-- Witness for C5 at a concrete node and hook list: an increment hook
followed by a caching hook, starting from a hook-free node named `n`. -/
theorem invoke_forward_threading_witness :
    (registerFwdList ⟨[], [], [], some "n"⟩ c5hooks).invoke_forward 5 [] =
      threadHooks (some "n") c5hooks 5 [] :=
  (invoke_forward_threading ⟨[], [], [], some "n"⟩ c5hooks 5 []).2.1 rfl

/-- C4: For every node and every valid direction, a removal with
`including_permanent=false` keeps exactly the permanent handles (in order) in
the selected direction(s) and leaves the other direction untouched; it is a
fixed point, so a permanent binding survives any number of such calls; and a
removal with `including_permanent=true` empties the selected direction(s). -/
theorem remove_hooks_permanence (hp : HookPoint) (d : String)
    (hvalid : d = "fwd" ∨ d = "bwd" ∨ d = "both") :
    ∃ hp', hp.remove_hooks d false = .ok hp' () ∧
      hp'.fwd_hooks = (if d == "fwd" || d == "both" then
        hp.fwd_hooks.filter (fun h => h.is_permanent) else hp.fwd_hooks) ∧
      hp'.bwd_hooks = (if d == "bwd" || d == "both" then
        hp.bwd_hooks.filter (fun h => h.is_permanent) else hp.bwd_hooks) ∧
      hp'.remove_hooks d false = .ok hp' () ∧
      (∃ hp2, hp.remove_hooks d true = .ok hp2 () ∧
        hp2.fwd_hooks = (if d == "fwd" || d == "both" then [] else hp.fwd_hooks) ∧
        hp2.bwd_hooks = (if d == "bwd" || d == "both" then [] else hp.bwd_hooks)) := by
  rcases hvalid with rfl | rfl | rfl
  · refine ⟨⟨removeHandles false hp.fwd_hooks, hp.bwd_hooks, hp.ctx, hp.name⟩,
      rfl, ?_, ?_, ?_, ⟨removeHandles true hp.fwd_hooks, hp.bwd_hooks, hp.ctx, hp.name⟩,
      rfl, ?_, ?_⟩ <;>
      simp [removeHandles_false, removeHandles_true, removeHandles_false_idem,
        HookPoint.remove_hooks]
  · refine ⟨⟨hp.fwd_hooks, removeHandles false hp.bwd_hooks, hp.ctx, hp.name⟩,
      rfl, ?_, ?_, ?_, ⟨hp.fwd_hooks, removeHandles true hp.bwd_hooks, hp.ctx, hp.name⟩,
      rfl, ?_, ?_⟩ <;>
      simp [removeHandles_false, removeHandles_true, removeHandles_false_idem,
        HookPoint.remove_hooks]
  · refine ⟨⟨removeHandles false hp.fwd_hooks, removeHandles false hp.bwd_hooks, hp.ctx, hp.name⟩,
      rfl, ?_, ?_, ?_, ⟨removeHandles true hp.fwd_hooks, removeHandles true hp.bwd_hooks,
        hp.ctx, hp.name⟩, rfl, ?_, ?_⟩ <;>
      simp [removeHandles_false, removeHandles_true, removeHandles_false_idem,
        HookPoint.remove_hooks]

/-- Witness for C4 at a node with mixed permanent and temporary handles in
both directions, direction `"both"`. -/
theorem remove_hooks_permanence_witness :
    ∃ hp', hpMix.remove_hooks "both" false = .ok hp' () ∧
      hp'.fwd_hooks = (if "both" == "fwd" || "both" == "both" then
        hpMix.fwd_hooks.filter (fun h => h.is_permanent) else hpMix.fwd_hooks) ∧
      hp'.bwd_hooks = (if "both" == "bwd" || "both" == "both" then
        hpMix.bwd_hooks.filter (fun h => h.is_permanent) else hpMix.bwd_hooks) ∧
      hp'.remove_hooks "both" false = .ok hp' () ∧
      (∃ hp2, hpMix.remove_hooks "both" true = .ok hp2 () ∧
        hp2.fwd_hooks = (if "both" == "fwd" || "both" == "both" then [] else hpMix.fwd_hooks) ∧
        hp2.bwd_hooks = (if "both" == "bwd" || "both" == "both" then [] else hpMix.bwd_hooks)) :=
  remove_hooks_permanence hpMix "both" (Or.inr (Or.inr rfl))

/-- C10: For every direction string outside the three valid ones,
`remove_hooks` raises the invalid-direction `ValueError` and leaves the node
exactly as it was: neither removal branch fires, so even though the validity
check runs after them, no binding has been removed when the error is
raised. -/
theorem remove_hooks_invalid_direction_atomic (hp : HookPoint) (d : String) (ip : Bool)
    (h1 : d ≠ "fwd") (h2 : d ≠ "bwd") (h3 : d ≠ "both") :
    hp.remove_hooks d ip = .err hp (.valueError ("Invalid direction " ++ d)) := by
  have b1 : (d == "fwd") = false := beq_eq_false_iff_ne.mpr h1
  have b2 : (d == "bwd") = false := beq_eq_false_iff_ne.mpr h2
  have b3 : (d == "both") = false := beq_eq_false_iff_ne.mpr h3
  simp [HookPoint.remove_hooks, b1, b2, b3]

/-- Witness for C10 at the direction string `"sideways"` on a node carrying
handles. -/
theorem remove_hooks_invalid_direction_atomic_witness :
    hpMix.remove_hooks "sideways" false =
      .err hpMix (.valueError ("Invalid direction " ++ "sideways")) :=
  remove_hooks_invalid_direction_atomic hpMix "sideways" false
    (by decide) (by decide) (by decide)

/-- C8: `layer()` on a node named `"blocks.3.attn"` returns `3`; on a node
named `"embed"` it raises (IndexError: only one dot-separated segment); on a
node with an unset name it raises; and whenever it returns a value `i`, the
name was set and consisted of two or more dot-separated segments with the
second segment an integer literal parsing to `i` — contrapositively, every
node whose name does not follow the convention fails instead of returning a
value. -/
theorem layer_index_resolution (hp : HookPoint) :
    ((⟨[], [], [], some "blocks.3.attn"⟩ : HookPoint).layer = .ok 3) ∧
    ((⟨[], [], [], some "embed"⟩ : HookPoint).layer =
      .error (.indexError "list index out of range")) ∧
    (hp.name = none → ∃ e, hp.layer = .error e) ∧
    (∀ i : Int, hp.layer = .ok i → ∃ n s, hp.name = some n ∧
      2 ≤ (splitOnDot n).length ∧ (splitOnDot n).get? 1 = some s ∧ pyInt? s = some i) := by
  refine ⟨rfl, rfl, ?_, ?_⟩
  · intro h
    unfold HookPoint.layer
    rw [h]
    exact ⟨_, rfl⟩
  · intro i h
    unfold HookPoint.layer at h
    cases hn : hp.name with
    | none => rw [hn] at h; cases h
    | some n =>
      rw [hn] at h
      dsimp only at h
      cases hs : (splitOnDot n).get? 1 with
      | none => rw [hs] at h; cases h
      | some s =>
        rw [hs] at h
        dsimp only at h
        cases hi : pyInt? s with
        | none => rw [hi] at h; cases h
        | some j =>
          rw [hi] at h
          dsimp only at h
          cases h
          exact ⟨n, s, rfl, (List.get?_eq_some.mp hs).1, hs, hi⟩

/-- Witness for C8 at a node with an unset name. -/
theorem layer_index_resolution_witness :
    ∃ e, (⟨[], [], [], none⟩ : HookPoint).layer = .error e :=
  (layer_index_resolution ⟨[], [], [], none⟩).2.2.1 rfl

/-- C9: On a registry on which `setup()` has not run, `mod_dict` and
`hook_dict` do not exist, so `add_hook` — with an exact-name target or a
predicate target — raises (`AttributeError`, the spec's `NotInitialized`)
with the registry left exactly as it was: no binding registered on any
node. -/
theorem add_hook_before_setup_fails (m : HookedRootModule) (name : HookName) (hook : Hook)
    (d : String) (perm : Bool) (h : m.hook_dict = none) :
    ∃ e, m.add_hook name hook d perm = .err m e := by
  cases name <;> simp [HookedRootModule.add_hook, h]

/-- Witness for C9 on the freshly constructed registry with a string
target. -/
theorem add_hook_before_setup_fails_witness :
    ∃ e, reg0.add_hook (.str "a") (.pure (fun _ => none)) "fwd" false = .err reg0 e :=
  add_hook_before_setup_fails reg0 (.str "a") (.pure (fun _ => none)) "fwd" false rfl

/-- C1 fails on the code (evaluated at the failing inputs): after the filter
normalisation rebinds `names_filter` over itself, a string filter `"a"` on the
registry `{a, b, c}` installs no hook at all, so after a forward pass the
cache is empty instead of containing exactly `a`; a list filter `["a", "c"]`
raises `TypeError` when the first name is tested.  A genuine predicate filter
(third conjunct) behaves as the claim describes, caching exactly the matched
nodes with their observed values — confirming the slip is in the
string/list normalisation. -/
theorem add_caching_hooks_filter_self_shadowing_bug :
    (match reg3.add_caching_hooks (.str "a") false with
     | .ok m _ => onePass (fun _ => 7) (m.hook_dict.getD []) []
     | .err _ _ => [(some "ERR", 0)]) = ([] : Cache) ∧
    (reg3.add_caching_hooks (.list ["a", "c"]) false).isErr = true ∧
    (match reg3.add_caching_hooks (.fn (fun n => n == "a" || n == "c")) false with
     | .ok m _ => onePass (fun n => if n = "a" then 10 else if n = "b" then 20 else 30)
         (m.hook_dict.getD []) []
     | .err _ _ => [(some "ERR", 0)]) = [(some "a", 10), (some "c", 30)] :=
  ⟨rfl, rfl, rfl⟩

/-- C3 fails on the code (evaluated at the failing input): a predicate
backward pair makes `run_with_hooks` iterate `hook_dict` without `.items()`,
so the first one-character key `"a"` raises `ValueError` at the tuple
unpacking.  With `reset_hooks_end=false` the call returns exactly the raised
error with the registry unchanged — no backward hook was registered on any
node and the forward pass (which would have returned `42`) never ran; with
`reset_hooks_end=true` it still raises. -/
theorem run_with_hooks_bwd_predicate_unpack_bug :
    reg3.run_with_hooks [] [(.pred (fun _ => true), .pure (fun _ => none))] false false
      (fun s => .ok s 42) = .err reg3 (.valueError "not enough values to unpack") ∧
    (reg3.run_with_hooks [] [(.pred (fun _ => true), .pure (fun _ => none))] true false
      (fun s => .ok s 42)).isErr = true :=
  ⟨rfl, rfl⟩

/-- C2: Whatever happens inside `run_with_hooks` with `reset_hooks_end=true`
— the hook registration loops may raise, the wrapped forward execution may
return normally or raise, and may itself have changed the registry — the
`finally`-equivalent cleanup leaves no non-permanent binding on any node of
the registry afterwards, on both the normal and the exceptional exit path. -/
theorem run_with_hooks_reset_end_cleanup (m : HookedRootModule)
    (fwd_hooks bwd_hooks : List (HookName × Hook)) (clear_contexts : Bool)
    (forwardPass : HookedRootModule → PyResult HookedRootModule Val) :
    ((m.run_with_hooks fwd_hooks bwd_hooks true clear_contexts forwardPass).state).noTempHooks
      = true := by
  unfold HookedRootModule.run_with_hooks
  rw [if_pos rfl]
  split
  · next s out hTry =>
    have key := reset_state_noTemp s clear_contexts
    cases hr : s.reset_hooks clear_contexts "both" false with
    | ok s' u => rw [hr] at key; exact key
    | err s' e2 => rw [hr] at key; exact key
  · next s e hTry =>
    have key := reset_state_noTemp s clear_contexts
    cases hr : s.reset_hooks clear_contexts "both" false with
    | ok s' u => rw [hr] at key; exact key
    | err s' e2 => rw [hr] at key; exact key

/-- C6: Whenever a `run_with_cache` call with `reset_hooks_end=true`
completes (returns without raising), the final registry has no non-permanent
binding on any node — including bindings that predate the call, since the
final `reset_hooks` walks every node — and `is_caching` is `false`. -/
theorem run_with_cache_reset_end_frame (m : HookedRootModule) (nf : NamesFilterArg)
    (incl_bwd cc : Bool)
    (fp : HookedRootModule → Cache → PyResult (HookedRootModule × Cache) Val)
    (bp : Val → HookedRootModule → Cache → PyResult (HookedRootModule × Cache) Unit)
    (m' : HookedRootModule) (c : Cache) (out : Val)
    (h : m.run_with_cache nf incl_bwd true cc fp bp = .ok (m', c) out) :
    m'.noTempHooks = true ∧ m'.is_caching = false := by
  unfold HookedRootModule.run_with_cache at h
  cases h1 : m.add_caching_hooks nf incl_bwd with
  | err m1 e => rw [h1] at h; cases h
  | ok m1 u1 =>
    rw [h1] at h
    dsimp only at h
    cases h2 : fp m1 [] with
    | err s e => rw [h2] at h; cases h
    | ok sc out2 =>
      rw [h2] at h
      obtain ⟨m2, c2⟩ := sc
      dsimp only at h
      cases h3 : (if incl_bwd then bp out2 m2 c2 else PyResult.ok (m2, c2) ()) with
      | err s e => rw [h3] at h; cases h
      | ok sc3 u3 =>
        rw [h3] at h
        obtain ⟨m3, c3⟩ := sc3
        dsimp only at h
        cases h4 : m3.reset_hooks cc "both" false with
        | err m4 e => rw [h4] at h; cases h
        | ok m4 u4 =>
          rw [h4] at h
          dsimp only at h
          injection h with hpair hout
          injection hpair with hm hc
          subst hm
          constructor
          · have := reset_state_noTemp m3 cc
            rw [h4] at this
            exact this
          · exact reset_hooks_ok_flag m3 m4 cc "both" false u4 h4

/-- Witness for C6: a concrete completing `run_with_cache` call on `reg3`. -/
theorem run_with_cache_reset_end_frame_witness :
    c6reg.noTempHooks = true ∧ c6reg.is_caching = false :=
  run_with_cache_reset_end_frame reg3 .null false false
    (fun m c => .ok (m, c) 0) (fun _ m c => .ok (m, c) ()) c6reg c6run.state.2 0 rfl

/-- C7 fails on the code at an explicit input: starting from `reg3` with
caching hooks installed (`is_caching = True`), clearing every hook via
`remove_all_hook_fns("both", including_permanent=True)` succeeds and leaves
all hook lists empty, yet `is_caching` is still `true` afterwards — the flag
is reset only by `reset_hooks`. -/
theorem remove_all_hook_fns_keeps_caching_flag_cex :
    regCachingAll.is_caching = true ∧
    (regCachingAll.remove_all_hook_fns "both" true).isErr = false ∧
    allHooksCleared c7after = true ∧
    c7after.is_caching = true :=
  ⟨rfl, rfl, rfl, rfl⟩

/-- C7 amended: `is_caching` is `false` immediately after any successful
`reset_hooks`; `remove_all_hook_fns` never modifies `is_caching`, so clearing
all hooks through it alone leaves the flag as it was. -/
theorem caching_flag_reset_semantics (m m' : HookedRootModule) (cc : Bool) (d : String)
    (ip : Bool) (u : Unit) :
    (m.reset_hooks cc d ip = .ok m' u → m'.is_caching = false) ∧
    ((m.remove_all_hook_fns d ip).state).is_caching = m.is_caching := by
  constructor
  · exact reset_hooks_ok_flag m m' cc d ip u
  · unfold HookedRootModule.remove_all_hook_fns
    cases hm : m.hook_dict with
    | none => rfl
    | some hd =>
      dsimp only
      cases hr : removeAllLoop d ip hd with
      | err hd' e => rfl
      | ok hd' u2 => rfl

/-- Witness for C7's amended claim: `reset_hooks` on the caching registry
turns the flag off; `remove_all_hook_fns` leaves it untouched. -/
theorem caching_flag_reset_semantics_witness :
    resetReg3.is_caching = false ∧
    ((regCachingAll.remove_all_hook_fns "both" true).state).is_caching =
      regCachingAll.is_caching :=
  ⟨(caching_flag_reset_semantics regCachingAll resetReg3 false "both" false ()).1 rfl,
   (caching_flag_reset_semantics regCachingAll c7after false "both" true ()).2⟩
